import Mathlib

/-!
Shallow embedding of `src/audio/decode/ad_mpg123.c` (mpv's libmpg123 audio
decoder wrapper) and verification of its bitrate-estimation and packet-decoding
logic.

Modelling conventions:
* C `float`/`double` arithmetic is idealised as exact rational arithmetic (ℚ);
  the quantities involved (per-frame bitrates, running means) are the spec's
  mathematical values.
* `unsigned int` is modelled as ℕ with explicit reduction modulo `2 ^ 32`
  wherever the source can wrap; `UINT_MAX` is `2 ^ 32 - 1`.
* An `(int)` cast of a floating value truncates toward zero (`ctrunc`).
* Return codes of the wrapped libmpg123 calls are modelled by the inductive
  `Mpg123Ret`: the source compares its `int` codes only against `MPG123_OK`,
  `MPG123_DONE`, `MPG123_NEW_FORMAT` and `MPG123_NEED_MORE`, so every other
  code is collapsed into the single constructor `err`.
* The outcome of each external library call made by `decode_packet`
  (`mpg123_feed`, `mpg123_decode_frame`, `mpg123_getformat`, `mpg123_info`)
  is an input of the model, packaged in `LibEnv`.
-/

/-- Truncation toward zero, as performed by a C `(int)` cast of a
floating-point value. -/
def ctrunc (q : ℚ) : Int := if 0 ≤ q then ⌊q⌋ else ⌈q⌉

/-- `UINT_MAX` for the 32-bit `unsigned int` of the target platform:
`(unsigned int) -1` in the source. -/
def UINT_MAX : ℕ := 2 ^ 32 - 1

/-- The libmpg123 VBR classification of a frame (`finfo.vbr`):
`MPG123_CBR`, `MPG123_VBR` or `MPG123_ABR`. -/
inductive VbrMode where
  | cbr
  | vbr
  | abr
  deriving DecidableEq

/-- The fields of `struct mpg123_frameinfo` read by the wrapper:
`version`, `layer`, `rate`, `bitrate` (kilobits) and `framesize`, plus the
VBR classification. -/
structure Frameinfo where
  version : ℕ
  layer : ℕ
  rate : Int
  bitrate : Int
  framesize : Int
  vbrMode : VbrMode
  deriving DecidableEq

/-- The `static const int samples_per_frame[4][4]` table of
`compute_bitrate`, indexed by MPEG version and layer.  Indices outside
`[0,3] × [0,3]` are out-of-bounds accesses in C (undefined); the model
returns the table's sentinel `-1` for them. -/
def samples_per_frame : ℕ → ℕ → Int
  | 0, 1 => 384
  | 0, 2 => 1152
  | 0, 3 => 1152
  | 1, 1 => 384
  | 1, 2 => 1152
  | 1, 3 => 576
  | 2, 1 => 384
  | 2, 2 => 1152
  | 2, 3 => 576
  | _, _ => -1

/-- `compute_bitrate`: `(int) ((i->framesize + 4) * 8 * i->rate /
samples_per_frame[i->version][i->layer] + 0.5)`.  The division is C integer
division (truncation toward zero, `Int.tdiv`) because all operands are
integers; only then is `0.5` added, as a `double`, and the sum cast to
`int`. -/
def compute_bitrate (i : Frameinfo) : Int :=
  ctrunc ((((i.framesize + 4) * 8 * i.rate).tdiv
      (samples_per_frame i.version i.layer) : ℚ) + 1 / 2)

/-- The bitrate-estimation fields of `struct ad_mpg123_context`:
`mean_rate` (C `float`), `mean_count` (C `unsigned int`), `delay`
(C `short`).  `delay` is modelled as ℤ: in every state the wrapper can
reach it lies in `[-1, 10]`, far from `short` overflow. -/
structure EstState where
  mean_rate : ℚ
  mean_count : ℕ
  delay : Int
  deriving DecidableEq

/-- The context right after `init`: `talloc_zero` zero-fills the whole
`ad_mpg123_context`. -/
def estInit : EstState := { mean_rate := 0, mean_count := 0, delay := 0 }

/-- `update_info`: updates the estimator state `con` and the externally
visible `da->bitrate` from one frame's metadata.  The `Option Frameinfo`
argument is the outcome of `mpg123_info`: `none` when that call does not
return `MPG123_OK`, in which case the function returns immediately. -/
def update_info (con : EstState) (daBitrate : Int) :
    Option Frameinfo → EstState × Int
  | none => (con, daBitrate)
  | some finfo =>
    -- finfo.bitrate is expressed in kilobits
    let bitrate : Int := finfo.bitrate * 1000
    if finfo.vbrMode ≠ VbrMode.cbr then
      -- if (--con->delay < 1)
      let delay1 : Int := con.delay - 1
      if delay1 < 1 then
        -- if (++con->mean_count > ((unsigned int) -1) / 2)
        --     con->mean_count = ((unsigned int) -1) / 4;
        let mc1 : ℕ := (con.mean_count + 1) % 2 ^ 32
        let mc : ℕ := if UINT_MAX / 2 < mc1 then UINT_MAX / 4 else mc1
        -- (con->mean_count - 1), unsigned arithmetic
        let mcm1 : ℕ := (mc + 2 ^ 32 - 1) % 2 ^ 32
        let mr : ℚ := ((mcm1 : ℚ) * con.mean_rate + (bitrate : ℚ)) / (mc : ℚ)
        ({ mean_rate := mr, mean_count := mc, delay := 10 },
          ctrunc (mr + 1 / 2))
      else
        ({ con with delay := delay1 }, daBitrate)
    else
      ({ mean_rate := 0, mean_count := 0, delay := 1 },
        if bitrate ≠ 0 then bitrate else compute_bitrate finfo)

/-- Iterated `update_info` over a list of frames, each with a successful
`mpg123_info` query; threads the estimator state and the visible
`da->bitrate`. -/
def runEst : EstState → Int → List Frameinfo → EstState × Int
  | con, v, [] => (con, v)
  | con, v, f :: fs =>
    runEst (update_info con v (some f)).1 (update_info con v (some f)).2 fs

/-- The libmpg123 output encodings the wrapper's `switch` distinguishes;
`other` stands for every remaining `int` encoding code. -/
inductive MpgEnc where
  | signed8
  | signed16
  | signed32
  | float32
  | other
  deriving DecidableEq

/-- The host audio formats; `invalid` models the `0` returned by
`mpg123_format_to_af` for an unrecognised encoding. -/
inductive AfFormat where
  | s8
  | s16
  | s32
  | flt
  | invalid
  deriving DecidableEq

/-- `mpg123_format_to_af`: maps the library encoding to the host format,
`0` (`invalid`) when unrecognised. -/
def mpg123_format_to_af : MpgEnc → AfFormat
  | MpgEnc.signed8 => AfFormat.s8
  | MpgEnc.signed16 => AfFormat.s16
  | MpgEnc.signed32 => AfFormat.s32
  | MpgEnc.float32 => AfFormat.flt
  | MpgEnc.other => AfFormat.invalid

/-- Modelled from the spec: `af_fmt2bps` is defined in the host player's
audio-format module, which is not among the sources here; the spec calls it
"bytes-per-sample-of-encoding".  Bytes per sample of each host format
(signed 8/16/32-bit integer, 32-bit float); `0` for the invalid format. -/
def af_fmt2bps : AfFormat → Int
  | AfFormat.s8 => 1
  | AfFormat.s16 => 2
  | AfFormat.s32 => 4
  | AfFormat.flt => 4
  | AfFormat.invalid => 0

/-- Return codes of the wrapped library calls, as distinguished by the
wrapper: `MPG123_OK`, `MPG123_DONE`, `MPG123_NEW_FORMAT`,
`MPG123_NEED_MORE`, and every other code collapsed into `err`. -/
inductive Mpg123Ret where
  | ok
  | done
  | newFormat
  | needMore
  | err
  deriving DecidableEq

/-- A demuxed packet as the wrapper sees it: only the presentation
timestamp matters to the modelled state (`none` = `MP_NOPTS_VALUE`).  The
payload bytes are consumed opaquely by `mpg123_feed`. -/
structure Packet where
  pts : Option ℚ
  deriving DecidableEq

/-- Outcomes of the external library calls made during one
`decode_packet` invocation. -/
structure LibEnv where
  /-- Return code of `mpg123_feed`. -/
  feedRet : Mpg123Ret
  /-- Return code of `mpg123_decode_frame`. -/
  decodeRet : Mpg123Ret
  /-- `bytes` produced by `mpg123_decode_frame` (a `size_t`). -/
  decodedBytes : ℕ
  /-- Return code of `mpg123_getformat`. -/
  getformatRet : Mpg123Ret
  /-- `rate` reported by `mpg123_getformat`. -/
  rate : Int
  /-- `channels` reported by `mpg123_getformat`. -/
  channels : Int
  /-- `encoding` reported by `mpg123_getformat`. -/
  encoding : MpgEnc
  /-- Outcome of `mpg123_info` (`none` when it does not return `MPG123_OK`). -/
  frameinfo : Option Frameinfo
  deriving DecidableEq

/-- The mutable per-stream state `decode_packet` touches: fields of
`struct dec_audio` (`pts`, `pts_offset`, `bitrate`, the `decoded` buffer
descriptor) and of `struct ad_mpg123_context` (`sample_size` and the
estimator state). -/
structure DaState where
  pts : Option ℚ
  pts_offset : Int
  bitrate : Int
  decodedSamples : ℕ
  decodedRate : Int
  decodedChannels : Int
  decodedFormat : AfFormat
  sample_size : Int
  est : EstState
  deriving DecidableEq

/-- `set_format`: queries the negotiated format and stores it.  On
`MPG123_OK` it records channels and rate, maps the encoding (an
unrecognised encoding yields `MPG123_ERR`), stores the format and
`sample_size = channels * af_fmt2bps(af)`; otherwise it passes the
`mpg123_getformat` return code through unchanged. -/
def set_format (da : DaState) (env : LibEnv) : DaState × Mpg123Ret :=
  if env.getformatRet = Mpg123Ret.ok then
    let da1 := { da with decodedChannels := env.channels, decodedRate := env.rate }
    let af := mpg123_format_to_af env.encoding
    if af = AfFormat.invalid then
      (da1, Mpg123Ret.err)
    else
      ({ da1 with decodedFormat := af,
                  sample_size := env.channels * af_fmt2bps af }, Mpg123Ret.ok)
  else
    (da, env.getformatRet)

/-- The wrapper's `decode_packet` return values: `0` (produced output or
needs more input), `AD_EOF`, `AD_ERR`. -/
inductive AdResult where
  | ok
  | eof
  | err
  deriving DecidableEq

/-- `decode_packet`: one invocation of the per-packet decode entry point.
`pkt = none` models `demux_read_packet` returning no packet. -/
def decode_packet (da0 : DaState) (pkt : Option Packet) (env : LibEnv) :
    DaState × AdResult :=
  -- mp_audio_set_null_data(&da->decoded)
  let da := { da0 with decodedSamples := 0 }
  match pkt with
  | none => (da, AdResult.eof)
  | some p =>
    -- if (pkt->pts != MP_NOPTS_VALUE) { da->pts = pkt->pts; da->pts_offset = 0; }
    let da :=
      match p.pts with
      | some t => { da with pts := some t, pts_offset := 0 }
      | none => da
    if env.feedRet ≠ Mpg123Ret.ok then
      (da, AdResult.err)
    else if env.decodeRet = Mpg123Ret.needMore then
      (da, AdResult.ok)
    else if env.decodeRet ≠ Mpg123Ret.ok ∧ env.decodeRet ≠ Mpg123Ret.done ∧
        env.decodeRet ≠ Mpg123Ret.newFormat then
      (da, AdResult.err)
    else
      let fr := set_format da env
      if fr.2 ≠ Mpg123Ret.ok then
        (fr.1, AdResult.err)
      else if fr.1.sample_size < 1 then
        (fr.1, AdResult.err)
      else
        let got : ℕ := env.decodedBytes / fr.1.sample_size.toNat
        let da2 := { fr.1 with decodedSamples := got,
                               pts_offset := fr.1.pts_offset + (got : Int) }
        let ui := update_info da2.est da2.bitrate env.frameinfo
        ({ da2 with est := ui.1, bitrate := ui.2 }, AdResult.ok)

/-- A concrete decoder state, used as the input of witness evaluations. -/
def daW : DaState :=
  { pts := none, pts_offset := 3, bitrate := 555, decodedSamples := 7,
    decodedRate := 0, decodedChannels := 0, decodedFormat := AfFormat.invalid,
    sample_size := 0, est := estInit }

/-! ## Helper lemmas -/

lemma ctrunc_intCast_add_half (q : ℤ) :
    ctrunc ((q : ℚ) + 1 / 2) = if 0 ≤ q then q else q + 1 := by
  rw [ctrunc]
  by_cases h : 0 ≤ q
  · rw [if_pos (by positivity : (0 : ℚ) ≤ (q : ℚ) + 1 / 2), if_pos h,
      Int.floor_int_add]
    norm_num
  · push_neg at h
    have hq : (q : ℚ) + 1 / 2 < 0 := by
      have : (q : ℚ) ≤ -1 := by exact_mod_cast Int.le_sub_one_of_lt h
      linarith
    rw [if_neg (by linarith : ¬ (0 : ℚ) ≤ (q : ℚ) + 1 / 2), if_neg (by omega)]
    rw [add_comm, Int.ceil_add_int]
    have h2 : (⌈(1 / 2 : ℚ)⌉ : ℤ) = 1 := by
      rw [Int.ceil_eq_iff]
      norm_num
    omega

/-- `compute_bitrate` in closed integer form: the `+ 0.5`-and-cast step
around the C integer quotient returns that quotient unchanged when it is
nonnegative, and bumps a negative quotient by one. -/
lemma compute_bitrate_eq (i : Frameinfo) :
    compute_bitrate i =
      if 0 ≤ ((i.framesize + 4) * 8 * i.rate).tdiv (samples_per_frame i.version i.layer)
      then ((i.framesize + 4) * 8 * i.rate).tdiv (samples_per_frame i.version i.layer)
      else ((i.framesize + 4) * 8 * i.rate).tdiv (samples_per_frame i.version i.layer) + 1 := by
  rw [compute_bitrate, ctrunc_intCast_add_half]

/-- On a CBR frame `update_info` resets the estimator state and publishes
the frame's own bitrate (with the analytic fallback when it is zero). -/
lemma update_info_cbr (con : EstState) (v : Int) (f : Frameinfo)
    (hcbr : f.vbrMode = VbrMode.cbr) :
    update_info con v (some f) =
      ({ mean_rate := 0, mean_count := 0, delay := 1 },
        if f.bitrate * 1000 ≠ 0 then f.bitrate * 1000 else compute_bitrate f) := by
  simp only [update_info, hcbr, ne_eq, not_true_eq_false, if_false, ite_not]

/-- On a VBR frame with at least two ticks left on the delay counter,
`update_info` only decrements the counter. -/
lemma update_info_vbr_tick (con : EstState) (v : Int) (f : Frameinfo)
    (hf : f.vbrMode ≠ VbrMode.cbr) (hd : 2 ≤ con.delay) :
    update_info con v (some f) = ({ con with delay := con.delay - 1 }, v) := by
  have h1 : ¬ con.delay - 1 < 1 := by omega
  simp [update_info, hf, h1]

/-- On a VBR frame with the delay counter at one or below, `update_info`
refreshes the running mean and the visible bitrate. -/
lemma update_info_vbr_refresh (con : EstState) (v : Int) (f : Frameinfo)
    (hf : f.vbrMode ≠ VbrMode.cbr) (hd : con.delay ≤ 1) :
    update_info con v (some f) =
      (let mc1 : ℕ := (con.mean_count + 1) % 2 ^ 32
       let mc : ℕ := if UINT_MAX / 2 < mc1 then UINT_MAX / 4 else mc1
       let mcm1 : ℕ := (mc + 2 ^ 32 - 1) % 2 ^ 32
       let mr : ℚ := ((mcm1 : ℚ) * con.mean_rate + ((f.bitrate * 1000 : Int) : ℚ)) / (mc : ℚ)
       ({ mean_rate := mr, mean_count := mc, delay := 10 },
         ctrunc (mr + 1 / 2))) := by
  have h1 : con.delay - 1 < 1 := by omega
  simp [update_info, hf, h1]

/-- Over a run of VBR frames shorter than the remaining delay, the
estimator only counts the delay down: mean, count and the visible bitrate
are untouched. -/
lemma runEst_no_refresh (fs : List Frameinfo) : ∀ (con : EstState) (v : Int),
    (∀ f ∈ fs, f.vbrMode ≠ VbrMode.cbr) → (fs.length : Int) < con.delay →
    (runEst con v fs).2 = v ∧
    (runEst con v fs).1.mean_rate = con.mean_rate ∧
    (runEst con v fs).1.mean_count = con.mean_count ∧
    (runEst con v fs).1.delay = con.delay - fs.length := by
  induction fs with
  | nil =>
    intro con v _ _
    simp [runEst]
  | cons f fs ih =>
    intro con v hall hlen
    have hf : f.vbrMode ≠ VbrMode.cbr := hall f (List.mem_cons_self f fs)
    have hlen0 : (0 : Int) ≤ (fs.length : Int) := Int.natCast_nonneg _
    have hlen1 : ((f :: fs).length : Int) = (fs.length : Int) + 1 := by
      simp
    have h2 : 2 ≤ con.delay := by omega
    rw [runEst, update_info_vbr_tick con v f hf h2]
    obtain ⟨h1, hmr, hmc, hd⟩ :=
      ih { con with delay := con.delay - 1 } v
        (fun g hg => hall g (List.mem_cons_of_mem f hg))
        (by show (fs.length : Int) < con.delay - 1; omega)
    refine ⟨h1, hmr, hmc, ?_⟩
    rw [hd]
    simp only [List.length_cons, Nat.cast_add, Nat.cast_one]
    omega

/-! ## Claim theorems -/

/-- C2 (amended): after any refresh the delay counter holds 10; during the
next nine consecutive variable-bitrate frames the counter only counts down
and the externally visible estimate is unchanged, and the tenth frame
refreshes it and resets the counter to 10 — so the visible estimate is
updated at most once every 10 VBR frames.  (The claim's "counter
initialized to 10" is false: `talloc_zero` starts it at 0, so the very
first VBR frame already refreshes the estimate; the counter reaches 10
only as the reset value after a refresh.) -/
theorem vbr_refresh_every_ten (con : EstState) (v : Int) (fs : List Frameinfo)
    (hall : ∀ f ∈ fs, f.vbrMode ≠ VbrMode.cbr) (h10 : con.delay = 10)
    (hlen : fs.length ≤ 9) :
    (runEst con v fs).2 = v ∧
    (runEst con v fs).1.delay = 10 - (fs.length : Int) ∧
    (∀ f : Frameinfo, f.vbrMode ≠ VbrMode.cbr → fs.length = 9 →
      (update_info (runEst con v fs).1 (runEst con v fs).2 (some f)).1.delay = 10) := by
  have hlen9 : (fs.length : Int) ≤ 9 := by exact_mod_cast hlen
  obtain ⟨h1, _, _, hd⟩ := runEst_no_refresh fs con v hall (by omega)
  refine ⟨h1, by rw [hd, h10], ?_⟩
  intro f hf h9
  have hdle : (runEst con v fs).1.delay ≤ 1 := by
    rw [hd, h10, h9]
    norm_num
  rw [update_info_vbr_refresh _ _ _ hf hdle]

/-- Witness for C2: from a just-refreshed state (delay 10) three VBR
frames leave the visible estimate at its previous value 77. -/
theorem vbr_refresh_every_ten_witness :
    (runEst ⟨0, 0, 10⟩ 77
      [⟨0, 3, 44100, 128, 417, VbrMode.vbr⟩, ⟨0, 3, 44100, 160, 417, VbrMode.vbr⟩,
        ⟨0, 3, 44100, 96, 417, VbrMode.abr⟩]).2 = 77 :=
  (vbr_refresh_every_ten ⟨0, 0, 10⟩ 77
    [⟨0, 3, 44100, 128, 417, VbrMode.vbr⟩, ⟨0, 3, 44100, 160, 417, VbrMode.vbr⟩,
      ⟨0, 3, 44100, 96, 417, VbrMode.abr⟩]
    (by decide) rfl (by decide)).1

/-- Counterexample to C2 as frozen: the delay counter starts at 0, not 10
(`talloc_zero`), and consequently the very first VBR frame from the
initial state already refreshes the visible estimate (to 128000 here),
instead of leaving it untouched until the tenth frame. -/
theorem vbr_first_frame_refresh_cex :
    estInit.delay ≠ 10 ∧
    (update_info estInit 0 (some ⟨0, 3, 44100, 128, 417, VbrMode.vbr⟩)).2 = 128000 ∧
    (128000 : Int) ≠ 0 := by
  refine ⟨by decide, ?_, by decide⟩
  rw [update_info_vbr_refresh _ _ _ (by decide) (by decide)]
  norm_num [estInit, UINT_MAX, ctrunc]

/-- C3 (confirmed): on every refresh of the variable-bitrate estimate the
new mean satisfies `new_mean = ((count - 1) * old_mean + new_bitrate) /
count` with `count` the post-increment observation counter (the counter
value stored back, which is `old_count + 1` whenever the overflow cap has
not been hit) and `new_bitrate` the frame's bitrate in bits/second. -/
theorem vbr_running_mean_formula (con : EstState) (v : Int) (f : Frameinfo)
    (hf : f.vbrMode ≠ VbrMode.cbr) (hd : con.delay ≤ 1)
    (hinv : con.mean_count ≤ UINT_MAX / 2) :
    (update_info con v (some f)).1.mean_rate =
      ((((update_info con v (some f)).1.mean_count : ℚ) - 1) * con.mean_rate +
        ((f.bitrate * 1000 : Int) : ℚ)) / ((update_info con v (some f)).1.mean_count : ℚ) ∧
    (con.mean_count < UINT_MAX / 2 →
      (update_info con v (some f)).1.mean_count = con.mean_count + 1) := by
  have hpow : (2 : ℕ) ^ 32 = 4294967296 := by norm_num
  have hU2 : UINT_MAX / 2 = 2147483647 := by norm_num [UINT_MAX]
  have hU4 : UINT_MAX / 4 = 1073741823 := by norm_num [UINT_MAX]
  rw [hU2] at hinv
  rw [update_info_vbr_refresh con v f hf hd]
  dsimp only
  rw [hU2, hU4, hpow]
  have hm1 : (con.mean_count + 1) % 4294967296 = con.mean_count + 1 :=
    Nat.mod_eq_of_lt (by omega)
  rw [hm1]
  by_cases hc : 2147483647 < con.mean_count + 1
  · rw [if_pos hc]
    refine ⟨?_, fun hlt => absurd hlt (by omega)⟩
    have h2 : (1073741823 + 4294967296 - 1) % 4294967296 = 1073741822 := by norm_num
    rw [h2]
    norm_num
  · rw [if_neg hc]
    push_neg at hc
    refine ⟨?_, fun _ => rfl⟩
    have h2 : (con.mean_count + 1 + 4294967296 - 1) % 4294967296 = con.mean_count := by
      omega
    rw [h2]
    push_cast
    ring_nf

/-- Witness for C3: a refresh from mean 100 over 4 observations with a
frame at 200 kilobits. -/
theorem vbr_running_mean_formula_witness :
    (update_info ⟨100, 4, 1⟩ 0 (some ⟨0, 3, 44100, 200, 417, VbrMode.vbr⟩)).1.mean_rate =
      ((((update_info ⟨100, 4, 1⟩ 0
          (some ⟨0, 3, 44100, 200, 417, VbrMode.vbr⟩)).1.mean_count : ℚ) - 1) * 100 +
        ((200 * 1000 : Int) : ℚ)) /
        ((update_info ⟨100, 4, 1⟩ 0
          (some ⟨0, 3, 44100, 200, 417, VbrMode.vbr⟩)).1.mean_count : ℚ) :=
  (vbr_running_mean_formula ⟨100, 4, 1⟩ 0 ⟨0, 3, 44100, 200, 417, VbrMode.vbr⟩
    (by decide) (by decide) (by decide)).1

/-- C4 (confirmed): from any state satisfying the invariant
`mean_count ≤ UINT_MAX / 2`, one estimator update preserves the invariant,
and whenever the incremented counter would exceed `UINT_MAX / 2` it is
rescaled to `UINT_MAX / 4`; hence the counter never wraps its 32-bit
range. -/
theorem mean_count_no_overflow (con : EstState) (v : Int) (info : Option Frameinfo)
    (hinv : con.mean_count ≤ UINT_MAX / 2) :
    (update_info con v info).1.mean_count ≤ UINT_MAX / 2 ∧
    (∀ f : Frameinfo, info = some f → f.vbrMode ≠ VbrMode.cbr → con.delay ≤ 1 →
      UINT_MAX / 2 < con.mean_count + 1 →
      (update_info con v info).1.mean_count = UINT_MAX / 4) := by
  have hpow : (2 : ℕ) ^ 32 = 4294967296 := by norm_num
  have hU2 : UINT_MAX / 2 = 2147483647 := by norm_num [UINT_MAX]
  have hU4 : UINT_MAX / 4 = 1073741823 := by norm_num [UINT_MAX]
  cases info with
  | none =>
    exact ⟨by simpa [update_info] using hinv, by intro f h; cases h⟩
  | some f =>
    by_cases hcbr : f.vbrMode = VbrMode.cbr
    · rw [update_info_cbr con v f hcbr]
      refine ⟨Nat.zero_le _, ?_⟩
      intro f' heq hne _ _
      cases heq
      exact absurd hcbr hne
    · by_cases hd : con.delay ≤ 1
      · rw [update_info_vbr_refresh con v f hcbr hd]
        dsimp only
        rw [hU2] at hinv ⊢
        rw [hU4, hpow]
        have hm1 : (con.mean_count + 1) % 4294967296 = con.mean_count + 1 :=
          Nat.mod_eq_of_lt (by omega)
        rw [hm1]
        constructor
        · by_cases hc : 2147483647 < con.mean_count + 1
          · rw [if_pos hc]
            omega
          · rw [if_neg hc]
            omega
        · intro f' _ _ _ hcap
          rw [if_pos hcap]
      · have hd2 : 2 ≤ con.delay := by omega
        rw [update_info_vbr_tick con v f hcbr hd2]
        refine ⟨hinv, ?_⟩
        intro f' _ _ hdd _
        omega

/-- Witness for C4: at the cap (`mean_count = UINT_MAX / 2`), one refresh
rescales the counter to `UINT_MAX / 4`. -/
theorem mean_count_no_overflow_witness :
    (update_info ⟨0, 2147483647, 0⟩ 0
      (some ⟨0, 3, 44100, 128, 417, VbrMode.vbr⟩)).1.mean_count = UINT_MAX / 4 :=
  (mean_count_no_overflow ⟨0, 2147483647, 0⟩ 0
    (some ⟨0, 3, 44100, 128, 417, VbrMode.vbr⟩) (by norm_num [UINT_MAX])).2
    ⟨0, 3, 44100, 128, 417, VbrMode.vbr⟩ rfl (by decide) (by decide)
    (by norm_num [UINT_MAX])

/-- C1 (amended): for every constant-bitrate frame whose reported bitrate
`B` (kilobits) is nonzero, the externally visible bitrate estimate equals
`B * 1000` bits/second immediately — from any estimator state, hence in
particular right after the first decoded frame, with no smoothing delay.
(When `B = 0` the code publishes the analytic fallback instead, which is
the counterexample to the claim as frozen.) -/
theorem cbr_visible_bitrate_immediate (con : EstState) (v : Int) (f : Frameinfo)
    (hcbr : f.vbrMode = VbrMode.cbr) (hB : f.bitrate ≠ 0) :
    (update_info con v (some f)).2 = f.bitrate * 1000 := by
  rw [update_info_cbr con v f hcbr]
  simp [hB]

/-- Witness for C1: a CBR frame reporting 128 kilobits makes the visible
estimate 128000 bits/second at once, from the freshly initialised state. -/
theorem cbr_visible_bitrate_immediate_witness :
    (update_info estInit 0 (some ⟨0, 3, 44100, 128, 417, VbrMode.cbr⟩)).2 = 128 * 1000 :=
  cbr_visible_bitrate_immediate estInit 0 ⟨0, 3, 44100, 128, 417, VbrMode.cbr⟩ rfl
    (by decide)

/-- Counterexample to C1 as frozen: a CBR frame with reported bitrate
`B = 0` (MPEG-1 Layer III, frame size 417, rate 44100) publishes the
analytic fallback 128931, not `B * 1000 = 0`. -/
theorem cbr_zero_bitrate_cex :
    (update_info estInit 0 (some ⟨0, 3, 44100, 0, 417, VbrMode.cbr⟩)).2 = 128931 ∧
    (128931 : Int) ≠ 0 * 1000 := by
  constructor
  · rw [update_info_cbr _ _ _ rfl, if_neg (by decide), compute_bitrate_eq]
    decide
  · decide

/-- C5 (amended): for a constant-bitrate frame with reported bitrate zero,
the published estimate is `compute_bitrate`, which equals the truncating
C integer division `((framesize + 4) * 8 * rate) tdiv samples_per_frame`
whenever that quotient is nonnegative (the `+ 0.5`-and-`(int)`-cast leaves
the integer quotient unchanged); for MPEG-1 Layer III with frame size 417
and rate 44100 the value is 128931 bits/second. -/
theorem cbr_zero_bitrate_fallback (con : EstState) (v : Int) (f : Frameinfo)
    (hcbr : f.vbrMode = VbrMode.cbr) (hz : f.bitrate = 0) :
    (update_info con v (some f)).2 = compute_bitrate f ∧
    (0 ≤ ((f.framesize + 4) * 8 * f.rate).tdiv (samples_per_frame f.version f.layer) →
      compute_bitrate f =
        ((f.framesize + 4) * 8 * f.rate).tdiv (samples_per_frame f.version f.layer)) ∧
    compute_bitrate ⟨0, 3, 44100, 0, 417, VbrMode.cbr⟩ = 128931 := by
  refine ⟨?_, ?_, ?_⟩
  · rw [update_info_cbr con v f hcbr]
    simp [hz]
  · intro h
    rw [compute_bitrate_eq, if_pos h]
  · rw [compute_bitrate_eq]
    decide

/-- Witness for C5: the zero-bitrate fallback at the concrete MPEG-1
Layer III frame. -/
theorem cbr_zero_bitrate_fallback_witness :
    (update_info estInit 0 (some ⟨0, 3, 44100, 0, 417, VbrMode.cbr⟩)).2 =
      compute_bitrate ⟨0, 3, 44100, 0, 417, VbrMode.cbr⟩ :=
  (cbr_zero_bitrate_fallback estInit 0 ⟨0, 3, 44100, 0, 417, VbrMode.cbr⟩ rfl rfl).1

/-- Counterexample to C5 as frozen: at the claim's own input (MPEG-1
Layer III, frame size 417, rate 44100) the code computes 128931, not
134420; and the code's truncating integer division differs from the
claimed `round` of the exact quotient (frame size 418, rate 48000: code
140666, rounded exact quotient 140667). -/
theorem compute_bitrate_round_cex :
    compute_bitrate ⟨0, 3, 44100, 0, 417, VbrMode.cbr⟩ ≠ 134420 ∧
    compute_bitrate ⟨0, 3, 48000, 0, 418, VbrMode.cbr⟩ = 140666 ∧
    (⌊((418 + 4) * 8 * 48000 : ℚ) / 1152 + 1 / 2⌋ : ℤ) = 140667 := by
  refine ⟨?_, ?_, ?_⟩
  · rw [compute_bitrate_eq]
    decide
  · rw [compute_bitrate_eq]
    decide
  · norm_num

/-- C9 (amended): a constant-bitrate frame resets `mean_rate` and
`mean_count` to zero and sets the delay counter to one (not zero),
regardless of the previous state and classification. -/
theorem cbr_reset_state (con : EstState) (v : Int) (f : Frameinfo)
    (hcbr : f.vbrMode = VbrMode.cbr) :
    (update_info con v (some f)).1.mean_rate = 0 ∧
    (update_info con v (some f)).1.mean_count = 0 ∧
    (update_info con v (some f)).1.delay = 1 := by
  rw [update_info_cbr con v f hcbr]
  exact ⟨rfl, rfl, rfl⟩

/-- Witness for C9: reset from a dirty estimator state. -/
theorem cbr_reset_state_witness :
    (update_info ⟨5, 3, 7⟩ 0 (some ⟨0, 3, 44100, 128, 417, VbrMode.cbr⟩)).1.mean_rate = 0 ∧
    (update_info ⟨5, 3, 7⟩ 0 (some ⟨0, 3, 44100, 128, 417, VbrMode.cbr⟩)).1.mean_count = 0 ∧
    (update_info ⟨5, 3, 7⟩ 0 (some ⟨0, 3, 44100, 128, 417, VbrMode.cbr⟩)).1.delay = 1 :=
  cbr_reset_state ⟨5, 3, 7⟩ 0 ⟨0, 3, 44100, 128, 417, VbrMode.cbr⟩ rfl

/-- Counterexample to C9 as frozen: after a CBR frame the delay counter
holds `1`, not `0`. -/
theorem cbr_delay_cex :
    (update_info ⟨5, 3, 7⟩ 0 (some ⟨0, 3, 44100, 128, 417, VbrMode.cbr⟩)).1.delay = 1 ∧
    (1 : Int) ≠ 0 := by
  constructor
  · rw [update_info_cbr _ _ _ rfl]
  · decide

/-- C6 (confirmed): on every successful decode, the emitted sample count
is the floor of the decoded byte length divided by the per-sample-frame
byte size `channels * af_fmt2bps(format)` (in particular when the bytes do
not divide evenly), and the intra-packet sample offset `pts_offset`
advances by exactly that count. -/
theorem decoded_samples_floor (da : DaState) (p : Packet) (env : LibEnv)
    (hfeed : env.feedRet = Mpg123Ret.ok)
    (hdec : env.decodeRet = Mpg123Ret.ok ∨ env.decodeRet = Mpg123Ret.done ∨
      env.decodeRet = Mpg123Ret.newFormat)
    (hgf : env.getformatRet = Mpg123Ret.ok)
    (haf : mpg123_format_to_af env.encoding ≠ AfFormat.invalid)
    (hss : 1 ≤ env.channels * af_fmt2bps (mpg123_format_to_af env.encoding))
    (_hnd : ¬ ((env.channels * af_fmt2bps (mpg123_format_to_af env.encoding)).toNat ∣
      env.decodedBytes)) :
    (decode_packet da (some p) env).1.decodedSamples =
      env.decodedBytes / (env.channels * af_fmt2bps (mpg123_format_to_af env.encoding)).toNat ∧
    (decode_packet da (some p) env).1.pts_offset =
      (match p.pts with
        | some _ => (0 : Int)
        | none => da.pts_offset) +
      ((env.decodedBytes /
        (env.channels * af_fmt2bps (mpg123_format_to_af env.encoding)).toNat : ℕ) : Int) := by
  have hnm : env.decodeRet ≠ Mpg123Ret.needMore := by
    rcases hdec with h | h | h <;> simp [h]
  have h3 : ¬ (env.decodeRet ≠ Mpg123Ret.ok ∧ env.decodeRet ≠ Mpg123Ret.done ∧
      env.decodeRet ≠ Mpg123Ret.newFormat) := by
    rcases hdec with h | h | h <;> simp [h]
  have hlt : ¬ (env.channels * af_fmt2bps (mpg123_format_to_af env.encoding) < 1) := by
    omega
  obtain ⟨pts⟩ := p
  cases pts <;>
    simp [decode_packet, set_format, hfeed, hnm, h3, hgf, haf, hlt]

/-- Witness for C6: 1001 decoded bytes at 2 channels of signed 16-bit
samples (4 bytes per sample frame) emit `1001 / 4 = 250` samples and
advance `pts_offset` from 0 (the packet carries a timestamp) to 250. -/
theorem decoded_samples_floor_witness :
    (decode_packet daW (some ⟨some 5⟩)
      ⟨Mpg123Ret.ok, Mpg123Ret.ok, 1001, Mpg123Ret.ok, 44100, 2, MpgEnc.signed16,
        none⟩).1.decodedSamples = 250 ∧
    (decode_packet daW (some ⟨some 5⟩)
      ⟨Mpg123Ret.ok, Mpg123Ret.ok, 1001, Mpg123Ret.ok, 44100, 2, MpgEnc.signed16,
        none⟩).1.pts_offset = 250 := by
  obtain ⟨h1, h2⟩ := decoded_samples_floor daW ⟨some 5⟩
    ⟨Mpg123Ret.ok, Mpg123Ret.ok, 1001, Mpg123Ret.ok, 44100, 2, MpgEnc.signed16, none⟩
    rfl (Or.inl rfl) rfl (by decide) (by decide) (by decide)
  constructor
  · rw [h1]
    decide
  · rw [h2]
    decide

/-- C7 (confirmed): when the decode step reports "need more input", the
decode-one-packet operation returns the non-error, non-end-of-stream
result with zero samples attached to the output descriptor. -/
theorem need_more_not_error (da : DaState) (p : Packet) (env : LibEnv)
    (hfeed : env.feedRet = Mpg123Ret.ok) (hnm : env.decodeRet = Mpg123Ret.needMore) :
    (decode_packet da (some p) env).2 = AdResult.ok ∧
    (decode_packet da (some p) env).1.decodedSamples = 0 := by
  obtain ⟨pts⟩ := p
  cases pts <;> simp [decode_packet, hfeed, hnm]

/-- Witness for C7: a concrete "need more input" call. -/
theorem need_more_not_error_witness :
    (decode_packet daW (some ⟨none⟩)
      ⟨Mpg123Ret.ok, Mpg123Ret.needMore, 0, Mpg123Ret.ok, 44100, 2, MpgEnc.signed16,
        none⟩).2 = AdResult.ok ∧
    (decode_packet daW (some ⟨none⟩)
      ⟨Mpg123Ret.ok, Mpg123Ret.needMore, 0, Mpg123Ret.ok, 44100, 2, MpgEnc.signed16,
        none⟩).1.decodedSamples = 0 :=
  need_more_not_error daW ⟨none⟩
    ⟨Mpg123Ret.ok, Mpg123Ret.needMore, 0, Mpg123Ret.ok, 44100, 2, MpgEnc.signed16, none⟩
    rfl rfl

/-- C8 (confirmed): with a packet available, decode-one-packet reports a
decode error exactly when an underlying library call that was made
returned an outcome other than ok/done/new-format/need-more (for
`mpg123_feed` and `mpg123_getformat` the library API narrows this to
"other than ok", the hypotheses `hfeed`/`hgf`), or the successfully
reported output encoding is not one of signed-8/16/32 or float-32, or the
per-sample-frame byte size computed from a recognised encoding is less
than 1. -/
theorem decode_error_iff (da : DaState) (p : Packet) (env : LibEnv)
    (hfeed : env.feedRet = Mpg123Ret.ok ∨ env.feedRet = Mpg123Ret.err)
    (hgf : env.getformatRet = Mpg123Ret.ok ∨ env.getformatRet = Mpg123Ret.err) :
    ((decode_packet da (some p) env).2 = AdResult.err ↔
      (env.feedRet = Mpg123Ret.err ∨
       (env.feedRet = Mpg123Ret.ok ∧ env.decodeRet = Mpg123Ret.err) ∨
       (env.feedRet = Mpg123Ret.ok ∧
         (env.decodeRet = Mpg123Ret.ok ∨ env.decodeRet = Mpg123Ret.done ∨
           env.decodeRet = Mpg123Ret.newFormat) ∧
         env.getformatRet = Mpg123Ret.err) ∨
       (env.feedRet = Mpg123Ret.ok ∧
         (env.decodeRet = Mpg123Ret.ok ∨ env.decodeRet = Mpg123Ret.done ∨
           env.decodeRet = Mpg123Ret.newFormat) ∧
         env.getformatRet = Mpg123Ret.ok ∧
         mpg123_format_to_af env.encoding = AfFormat.invalid) ∨
       (env.feedRet = Mpg123Ret.ok ∧
         (env.decodeRet = Mpg123Ret.ok ∨ env.decodeRet = Mpg123Ret.done ∨
           env.decodeRet = Mpg123Ret.newFormat) ∧
         env.getformatRet = Mpg123Ret.ok ∧
         mpg123_format_to_af env.encoding ≠ AfFormat.invalid ∧
         env.channels * af_fmt2bps (mpg123_format_to_af env.encoding) < 1))) := by
  obtain ⟨pts⟩ := p
  rcases hfeed with hf | hf
  · rcases hgf with hg | hg
    · cases hdec : env.decodeRet <;>
        by_cases haf : mpg123_format_to_af env.encoding = AfFormat.invalid <;>
        by_cases hss : env.channels * af_fmt2bps (mpg123_format_to_af env.encoding) < 1 <;>
        cases pts <;>
        simp [decode_packet, set_format, hf, hg, hdec, haf, hss]
    · cases hdec : env.decodeRet <;> cases pts <;>
        simp [decode_packet, set_format, hf, hg, hdec]
  · cases pts <;> simp [decode_packet, hf]

/-- Witness for C8: an unrecognised output encoding makes decode-one-packet
report a decode error. -/
theorem decode_error_iff_witness :
    (decode_packet daW (some ⟨none⟩)
      ⟨Mpg123Ret.ok, Mpg123Ret.ok, 0, Mpg123Ret.ok, 44100, 2, MpgEnc.other,
        none⟩).2 = AdResult.err :=
  (decode_error_iff daW ⟨none⟩
    ⟨Mpg123Ret.ok, Mpg123Ret.ok, 0, Mpg123Ret.ok, 44100, 2, MpgEnc.other, none⟩
    (Or.inl rfl) (Or.inl rfl)).mpr (by decide)

/-- C10 (confirmed): on every invocation that does not run the full
success path — no packet (end of stream), feed failure, "need more
input", decode failure, format-query failure, unrecognised encoding,
non-positive sample size — and likewise when the frame-metadata query
fails, the estimator state (`mean_rate`, `mean_count`, `delay`) and the
externally visible bitrate are left unchanged. -/
theorem estimator_unchanged_unless_success (da : DaState) (pkt : Option Packet)
    (env : LibEnv)
    (hfail : ¬ (pkt.isSome = true ∧ env.feedRet = Mpg123Ret.ok ∧
      (env.decodeRet = Mpg123Ret.ok ∨ env.decodeRet = Mpg123Ret.done ∨
        env.decodeRet = Mpg123Ret.newFormat) ∧
      env.getformatRet = Mpg123Ret.ok ∧
      mpg123_format_to_af env.encoding ≠ AfFormat.invalid ∧
      1 ≤ env.channels * af_fmt2bps (mpg123_format_to_af env.encoding) ∧
      env.frameinfo.isSome = true)) :
    (decode_packet da pkt env).1.est = da.est ∧
    (decode_packet da pkt env).1.bitrate = da.bitrate := by
  cases pkt with
  | none => simp [decode_packet]
  | some p =>
    obtain ⟨pts⟩ := p
    by_cases hf : env.feedRet = Mpg123Ret.ok
    · by_cases hnm : env.decodeRet = Mpg123Ret.needMore
      · cases pts <;> simp [decode_packet, hf, hnm]
      · by_cases hdec : env.decodeRet = Mpg123Ret.ok ∨ env.decodeRet = Mpg123Ret.done ∨
          env.decodeRet = Mpg123Ret.newFormat
        · have h3 : ¬ (env.decodeRet ≠ Mpg123Ret.ok ∧ env.decodeRet ≠ Mpg123Ret.done ∧
              env.decodeRet ≠ Mpg123Ret.newFormat) := by
            rcases hdec with h | h | h <;> simp [h]
          by_cases hg : env.getformatRet = Mpg123Ret.ok
          · by_cases haf : mpg123_format_to_af env.encoding = AfFormat.invalid
            · cases pts <;> simp [decode_packet, set_format, hf, hnm, h3, hg, haf]
            · by_cases hss : env.channels * af_fmt2bps (mpg123_format_to_af env.encoding) < 1
              · cases pts <;> simp [decode_packet, set_format, hf, hnm, h3, hg, haf, hss]
              · cases hinfo : env.frameinfo with
                | some fi =>
                  exact absurd ⟨rfl, hf, hdec, hg, haf, by omega, by rw [hinfo]; rfl⟩ hfail
                | none =>
                  cases pts <;>
                    simp [decode_packet, set_format, hf, hnm, h3, hg, haf, hss, hinfo,
                      update_info]
          · have hg2 : env.getformatRet ≠ Mpg123Ret.ok := hg
            cases pts <;> simp [decode_packet, set_format, hf, hnm, h3, hg2]
        · have h3 : env.decodeRet ≠ Mpg123Ret.ok ∧ env.decodeRet ≠ Mpg123Ret.done ∧
              env.decodeRet ≠ Mpg123Ret.newFormat := by
            push_neg at hdec
            exact hdec
          cases pts <;> simp [decode_packet, hf, hnm, h3]
    · cases pts <;> simp [decode_packet, hf]

/-- Witness for C10: end of stream (no packet) leaves the estimator and
the visible bitrate untouched. -/
theorem estimator_unchanged_unless_success_witness :
    (decode_packet daW none
      ⟨Mpg123Ret.ok, Mpg123Ret.ok, 0, Mpg123Ret.ok, 44100, 2, MpgEnc.signed16,
        none⟩).1.est = daW.est ∧
    (decode_packet daW none
      ⟨Mpg123Ret.ok, Mpg123Ret.ok, 0, Mpg123Ret.ok, 44100, 2, MpgEnc.signed16,
        none⟩).1.bitrate = daW.bitrate :=
  estimator_unchanged_unless_success daW none
    ⟨Mpg123Ret.ok, Mpg123Ret.ok, 0, Mpg123Ret.ok, 44100, 2, MpgEnc.signed16, none⟩
    (by decide)
